import Mathlib

/-!
Shallow embedding of `src/addons/server/reliverse/trpc.ts`: a tRPC middleware
pipeline building four procedure variants (public, authenticated, board-scoped,
cached).  External collaborators (the auth.js session resolver, the database
board table, the Next.js tag-addressable data cache, the system clock and the
random source) are modelled as an explicit per-request environment `World`
together with an explicit effect state `Sys` threaded through every step.

Framework semantics relied on by the source and reflected here:
* a `TRPCError` thrown inside a middleware is caught by tRPC and turned into a
  non-ok middleware result (`MwRes.err`);
* the `ctx` object passed to `options.next({ ctx })` is shallow-merged by tRPC
  into the previous context, so a middleware returning only `{ board }` still
  passes `log` and `user` downstream;
* React's `cache` wrapper memoizes `createContext` once per request
  (`Sys.reactCtxCache`, reset at each request boundary);
* `unstable_cache(fn, keyParts, { tags })` is the opaque get-or-compute
  cache-store collaborator, addressed here by the key parts `[user.id]` and the
  declared tag; values survive across requests (`Sys.cacheStore`).
-/

set_option autoImplicit false

namespace RelivatorTrpc

universe u v

/-- A resolved auth.js session; the source only ever reads `user.id`. -/
structure User where
  id : String
deriving DecidableEq, Repr

/-- The logging handle stored in the context (`const log = console`). -/
inductive LoggerHandle where
  | console
deriving DecidableEq, Repr

/-- A row of the `boards` table, with the columns the query filters on. -/
structure Board where
  id : String
  ownerId : String
deriving DecidableEq, Repr

/-- The context produced by `createContext` (lines 20-32): a log handle and the
resolved session (possibly absent). -/
structure BaseCtx where
  log : LoggerHandle
  user : Option User
deriving DecidableEq, Repr

/-- The context downstream of `protectedAction`: `{...options.ctx, user}` with a
non-null `user` (lines 97-102). -/
structure AuthedCtx where
  log : LoggerHandle
  user : User
deriving DecidableEq, Repr

/-- The context downstream of `protectedBoardAction`: the prior context
shallow-merged with `{ board }` (lines 130-134). -/
structure BoardCtx where
  log : LoggerHandle
  user : User
  board : Board
deriving DecidableEq, Repr

/-- The `TRPCError` codes this file can construct or observe. -/
inductive TRPCCode where
  | UNAUTHORIZED
  | FORBIDDEN
  | INTERNAL_SERVER_ERROR
  | NOT_FOUND
  | BAD_REQUEST
deriving DecidableEq, Repr

/-- The default message tRPC attaches to a `TRPCError` built as
`new TRPCError({ code })` (the message defaults to the code's name). -/
def codeMessage : TRPCCode → String
  | .UNAUTHORIZED => "UNAUTHORIZED"
  | .FORBIDDEN => "FORBIDDEN"
  | .INTERNAL_SERVER_ERROR => "INTERNAL_SERVER_ERROR"
  | .NOT_FOUND => "NOT_FOUND"
  | .BAD_REQUEST => "BAD_REQUEST"

/-- A `TRPCError`: a code plus a message/detail payload. -/
structure TRPCErr where
  code : TRPCCode
  message : String
deriving DecidableEq, Repr

/-- `new TRPCError({ code })` with no explicit message. -/
def mkTRPCError (c : TRPCCode) : TRPCErr :=
  { code := c, message := codeMessage c }

/-- A middleware result as seen by `options.next` callers: `res.ok` with
`res.data`, or a failed result carrying `res.error`. -/
inductive MwRes (α : Type u) where
  | ok (data : α)
  | err (error : TRPCErr)
deriving DecidableEq, Repr

/-- `res.ok` of a middleware result. -/
def MwRes.isOk {α : Type u} : MwRes α → Bool
  | .ok _ => true
  | .err _ => false

/-- One record emitted by the base step's logging (lines 63-73): `log.info`
with `{duration, res}` on success, `log.error` with `{duration, error}` on
failure. -/
inductive LogEntry (α : Type u) where
  | info (duration : Nat) (res : α)
  | error (duration : Nat) (err : TRPCErr)
deriving DecidableEq, Repr

/-- The outcome record the base step logs for result `r` with measured
duration `d`. -/
def logOutcome {α : Type u} (d : Nat) : MwRes α → LogEntry α
  | .ok a => .info d a
  | .err e => .error d e

/-- The per-request environment: what the external collaborators answer during
this request.  `rand` is the value of `Math.floor(Math.random() * 400)`, which
ranges over `0..399`. -/
structure World where
  session : Option User
  boards : List Board
  isDev : Bool
  rand : Fin 400
deriving DecidableEq, Repr

/-- The explicit effect state threaded through the chain: the React per-request
memo of `createContext`, a counter of its underlying (non-memoized) runs, the
cross-request data-cache store keyed by `(user id, cache tag)`, the log
records, the injected sleeps, the clock, and a counter of handler (downstream
resolver) invocations. -/
structure Sys (α : Type u) where
  reactCtxCache : Option BaseCtx
  ctxCalls : Nat
  cacheStore : List ((String × String) × MwRes α)
  logs : List (LogEntry α)
  slept : List Nat
  now : Nat
  handlerCalls : Nat
deriving DecidableEq, Repr

/-- The empty state at process start. -/
def initSys {α : Type u} : Sys α :=
  { reactCtxCache := none, ctxCalls := 0, cacheStore := [], logs := [],
    slept := [], now := 0, handlerCalls := 0 }

/-- A request boundary: the React request cache is reset, everything else
(data cache, logs, clock) persists. -/
def newRequest {α : Type u} (s : Sys α) : Sys α :=
  { s with reactCtxCache := none }

/-- The session-resolution collaborator `authjs()` for this request. -/
def authjs (w : World) : Option User :=
  w.session

/-- The body of `createContext` (lines 20-32) without the React `cache`
wrapper: resolve the session, pick the `console` log handle, return both. -/
def createContextRaw (w : World) : BaseCtx :=
  { log := LoggerHandle.console, user := authjs w }

/-- `createContext` with its React `cache` wrapper: per-request memoized.  A
fresh run bumps `ctxCalls` and stores the context; a memoized run returns the
stored context untouched. -/
def createContext {α : Type u} (w : World) (s : Sys α) : BaseCtx × Sys α :=
  match s.reactCtxCache with
  | some c => (c, s)
  | none =>
    let c := createContextRaw w
    (c, { s with reactCtxCache := some c, ctxCalls := s.ctxCalls + 1 })

/-- `await new Promise((resolve) => setTimeout(resolve, ms))`: the clock
advances by `ms` and the sleep is recorded. -/
def sleepMs {α : Type u} (ms : Nat) (s : Sys α) : Sys α :=
  { s with now := s.now + ms, slept := s.slept ++ [ms] }

/-- `Math.floor(Math.random() * 400) + 100` (line 47). -/
def devWaitMs (w : World) : Nat :=
  w.rand.val + 100

/-- The total artificial delay the base step injects: the dev wait in dev mode,
nothing otherwise (lines 45-50). -/
def devDelay (w : World) : Nat :=
  if w.isDev then devWaitMs w else 0

/-- `log.info({ duration, res: res.data })` (lines 64-67). -/
def logInfo {α : Type u} (d : Nat) (a : α) (s : Sys α) : Sys α :=
  { s with logs := s.logs ++ [.info d a] }

/-- `log.error({ duration, error: res.error })` (lines 69-72). -/
def logError {α : Type u} (d : Nat) (e : TRPCErr) (s : Sys α) : Sys α :=
  { s with logs := s.logs ++ [.error d e] }

/-- The context the base step passes to `options.next`: `{...context, log}`
where `log` was destructured from `context` (lines 43 and 54-59). -/
def baseNextCtx (context : BaseCtx) (log : LoggerHandle) : BaseCtx :=
  { log := log, user := context.user }

/-- The base middleware of `nextProc` (lines 38-76): create (or reuse) the
request context, inject the artificial dev delay, time the downstream call,
log exactly one outcome record, and return the downstream result unchanged. -/
def baseStep {α : Type u} (w : World)
    (next : BaseCtx → Sys α → MwRes α × Sys α) (s : Sys α) : MwRes α × Sys α :=
  let cs := createContext w s
  let context := cs.1
  let log := context.log
  let s1 := if w.isDev then sleepMs (devWaitMs w) cs.2 else cs.2
  let start := s1.now
  let rs := next (baseNextCtx context log) s1
  let res := rs.1
  let duration := rs.2.now - start
  let s2 :=
    match res with
    | .ok a => logInfo duration a rs.2
    | .err e => logError duration e rs.2
  (res, s2)

/-- The context `protectedAction` passes downstream:
`{...options.ctx, user}` (lines 97-102). -/
def protectedNextCtx (c : BaseCtx) (user : User) : AuthedCtx :=
  { log := c.log, user := user }

/-- The middleware added by `protectedAction` (lines 87-106): resolve the
session by calling `authjs()` directly; throw `UNAUTHORIZED` when absent;
otherwise continue with the user merged into the context. -/
def protectedMw {α : Type u} (w : World)
    (next : AuthedCtx → Sys α → MwRes α × Sys α)
    (c : BaseCtx) (s : Sys α) : MwRes α × Sys α :=
  match authjs w with
  | none => (.err (mkTRPCError .UNAUTHORIZED), s)
  | some user => next (protectedNextCtx c user) s

/-- The declared input of `protectedBoardAction`:
`z.object({ boardId: z.string() })` (lines 110-114). -/
structure BoardInput where
  boardId : String
deriving DecidableEq, Repr

/-- `db.query.boards.findFirst` with the where-clause
`and(eq(fields.ownerId, ownerId), eq(fields.id, boardId))` (lines 116-122):
the first row matching both filters. -/
def boardsFindFirst (boards : List Board) (ownerId boardId : String) :
    Option Board :=
  boards.find? (fun f => f.ownerId == ownerId && f.id == boardId)

/-- The context `protectedBoardAction` passes downstream: the source returns
only `{ board }`, which tRPC shallow-merges into the prior context
(lines 130-134). -/
def boardNextCtx (c : AuthedCtx) (board : Board) : BoardCtx :=
  { log := c.log, user := c.user, board := board }

/-- The middleware added by `protectedBoardAction` (lines 115-135): look up
the board filtered by the current user's ownership and the declared
`boardId`; throw `FORBIDDEN` when no row matches; otherwise continue with the
board merged into the context. -/
def boardMw {α : Type u} (w : World)
    (next : BoardCtx → Sys α → MwRes α × Sys α)
    (c : AuthedCtx) (input : BoardInput) (s : Sys α) : MwRes α × Sys α :=
  match boardsFindFirst w.boards c.user.id input.boardId with
  | none => (.err (mkTRPCError .FORBIDDEN), s)
  | some board => next (boardNextCtx c board) s

/-- Lookup in the data-cache store by `(user id, cache tag)`. -/
def cacheLookup {α : Type u} :
    List ((String × String) × MwRes α) → String × String → Option (MwRes α)
  | [], _ => none
  | (k, v) :: rest, key => if k = key then some v else cacheLookup rest key

/-- The middleware added by `cachedDataLayer cacheTag` (lines 138-157):
`unstable_cache` keyed by `[options.ctx.user.id]` with `tags: [cacheTag]`.  On
a hit the stored result is returned and downstream is not invoked.  On a miss
`options.next()` runs (context unchanged); an ok result is stored and
returned, a failed result makes the wrapped function throw a fresh
`INTERNAL_SERVER_ERROR` (nothing is stored). -/
def cachedMw {α : Type u} (cacheTag : String)
    (next : Sys α → MwRes α × Sys α)
    (c : AuthedCtx) (s : Sys α) : MwRes α × Sys α :=
  match cacheLookup s.cacheStore (c.user.id, cacheTag) with
  | some v => (v, s)
  | none =>
    let rs := next s
    match rs.1 with
    | .ok a =>
      (.ok a, { rs.2 with
        cacheStore := ((c.user.id, cacheTag), MwRes.ok a) :: rs.2.cacheStore })
    | .err _ => (.err (mkTRPCError .INTERNAL_SERVER_ERROR), rs.2)

/-- Invoking the innermost resolver: a downstream handler is a pure function
from its context and input to a result and the time it takes; invoking it
advances the clock and bumps the invocation counter. -/
def callHandler {α : Type u} {γ : Type} {ι : Type v}
    (h : γ → ι → MwRes α × Nat) (c : γ) (i : ι) (s : Sys α) :
    MwRes α × Sys α :=
  let r := h c i
  (r.1, { s with now := s.now + r.2, handlerCalls := s.handlerCalls + 1 })

/-- `publicAction = nextProc` (line 84): the base step around the resolver. -/
def runPublic {α : Type u} {ι : Type v} (w : World)
    (h : BaseCtx → ι → MwRes α × Nat) (i : ι) (s : Sys α) :
    MwRes α × Sys α :=
  baseStep w (fun c s1 => callHandler h c i s1) s

/-- `protectedAction` (lines 87-106): base step, then the auth middleware,
then the resolver. -/
def runProtected {α : Type u} {ι : Type v} (w : World)
    (h : AuthedCtx → ι → MwRes α × Nat) (i : ι) (s : Sys α) :
    MwRes α × Sys α :=
  baseStep w (fun c s1 =>
    protectedMw w (fun c2 s2 => callHandler h c2 i s2) c s1) s

/-- `protectedBoardAction` (lines 109-135): base step, auth middleware, board
ownership middleware, resolver. -/
def runProtectedBoard {α : Type u} (w : World)
    (h : BoardCtx → BoardInput → MwRes α × Nat) (i : BoardInput)
    (s : Sys α) : MwRes α × Sys α :=
  baseStep w (fun c s1 =>
    protectedMw w (fun c2 s2 =>
      boardMw w (fun c3 s3 => callHandler h c3 i s3) c2 i s2) c s1) s

/-- `cachedDataLayer cacheTag` (lines 138-157): base step, auth middleware,
caching middleware around the resolver (`options.next()` leaves the context
unchanged, so the resolver still sees the authed context). -/
def runCached {α : Type u} {ι : Type v} (cacheTag : String) (w : World)
    (h : AuthedCtx → ι → MwRes α × Nat) (i : ι) (s : Sys α) :
    MwRes α × Sys α :=
  baseStep w (fun c s1 =>
    protectedMw w (fun c2 s2 =>
      cachedMw cacheTag (fun s3 => callHandler h c2 i s3) c2 s2) c s1) s

/-- Iterated invocation of the memoized `createContext` within one request. -/
def iterCreateContext {α : Type u} (w : World) : Nat → Sys α → Sys α
  | 0, s => s
  | n + 1, s => iterCreateContext w n (createContext w s).2

/-- The state right after the base step's context creation and optional dev
delay, i.e. just before the downstream call starts. -/
def afterDelay {α : Type u} (w : World) (s : Sys α) : Sys α :=
  if w.isDev then sleepMs (devWaitMs w) (createContext w s).2
  else (createContext w s).2

/-! Concrete fixtures used by the witness theorems. -/

/-- A concrete signed-in user. -/
def u1 : User := { id := "alice" }

/-- A concrete board owned by `u1`. -/
def b1 : Board := { id := "board-1", ownerId := "alice" }

/-- A request environment with a resolved session, outside dev mode. -/
def wAuthed : World :=
  { session := some u1, boards := [b1], isDev := false, rand := 7 }

/-- A request environment whose session resolution returns nothing. -/
def wAnon : World :=
  { session := none, boards := [b1], isDev := false, rand := 7 }

/-- A request environment with a resolved session, in dev mode. -/
def wDev : World :=
  { session := some u1, boards := [b1], isDev := true, rand := 250 }

/-- A resolver that succeeds with `42` and takes 5 time units. -/
def hOk : AuthedCtx → Nat → MwRes Nat × Nat := fun _ _ => (.ok 42, 5)

/-- A resolver that fails with a custom `INTERNAL_SERVER_ERROR`. -/
def hBoom : AuthedCtx → Nat → MwRes Nat × Nat :=
  fun _ _ => (.err { code := .INTERNAL_SERVER_ERROR, message := "boom" }, 3)

/-- A resolver that fails with a `NOT_FOUND` carrying a detail message. -/
def hFail : AuthedCtx → Nat → MwRes Nat × Nat :=
  fun _ _ => (.err { code := .NOT_FOUND, message := "missing row" }, 3)

/-- A board resolver that succeeds with `7`. -/
def hBoard : BoardCtx → BoardInput → MwRes Nat × Nat := fun _ _ => (.ok 7, 2)

/-- A resolver whose result depends on its input. -/
def hEcho : AuthedCtx → Nat → MwRes Nat × Nat := fun _ i => (.ok i, 1)

/-! Helper lemmas about the state operations and the memoized context. -/

theorem LoggerHandle.eq_console (l : LoggerHandle) : l = .console := by
  cases l
  rfl

@[simp]
theorem createContext_fst_log {α : Type u} (w : World) (s : Sys α) :
    ((createContext w s).1).log = .console := by
  rcases s with ⟨rc, cc, cs, lg, sl, nw, hc⟩
  cases rc with
  | none => rfl
  | some c =>
    rcases c with ⟨l, us⟩
    cases l
    rfl

theorem createContext_of_none {α : Type u} (w : World) (s : Sys α)
    (h : s.reactCtxCache = none) :
    createContext w s =
      (createContextRaw w,
        { s with reactCtxCache := some (createContextRaw w),
                 ctxCalls := s.ctxCalls + 1 }) := by
  unfold createContext
  rw [h]

theorem createContext_of_some {α : Type u} (w : World) (s : Sys α)
    (c : BaseCtx) (h : s.reactCtxCache = some c) :
    createContext w s = (c, s) := by
  unfold createContext
  rw [h]

@[simp]
theorem createContext_snd_cache {α : Type u} (w : World) (s : Sys α) :
    ((createContext w s).2).reactCtxCache = some (createContext w s).1 := by
  rcases s with ⟨rc, cc, cs, lg, sl, nw, hc⟩
  cases rc <;> rfl

theorem createContext_stable {α : Type u} (w : World) (s : Sys α) :
    createContext w (createContext w s).2 =
      ((createContext w s).1, (createContext w s).2) := by
  exact createContext_of_some w _ _ (createContext_snd_cache w s)

@[simp]
theorem createContext_snd_now {α : Type u} (w : World) (s : Sys α) :
    ((createContext w s).2).now = s.now := by
  rcases s with ⟨rc, cc, cs, lg, sl, nw, hc⟩
  cases rc <;> rfl

@[simp]
theorem createContext_snd_logs {α : Type u} (w : World) (s : Sys α) :
    ((createContext w s).2).logs = s.logs := by
  rcases s with ⟨rc, cc, cs, lg, sl, nw, hc⟩
  cases rc <;> rfl

@[simp]
theorem createContext_snd_slept {α : Type u} (w : World) (s : Sys α) :
    ((createContext w s).2).slept = s.slept := by
  rcases s with ⟨rc, cc, cs, lg, sl, nw, hc⟩
  cases rc <;> rfl

@[simp]
theorem createContext_snd_handlerCalls {α : Type u} (w : World) (s : Sys α) :
    ((createContext w s).2).handlerCalls = s.handlerCalls := by
  rcases s with ⟨rc, cc, cs, lg, sl, nw, hc⟩
  cases rc <;> rfl

@[simp]
theorem createContext_snd_cacheStore {α : Type u} (w : World) (s : Sys α) :
    ((createContext w s).2).cacheStore = s.cacheStore := by
  rcases s with ⟨rc, cc, cs, lg, sl, nw, hc⟩
  cases rc <;> rfl

theorem createContext_snd_ctxCalls_le {α : Type u} (w : World) (s : Sys α) :
    ((createContext w s).2).ctxCalls ≤ s.ctxCalls + 1 := by
  rcases s with ⟨rc, cc, cs, lg, sl, nw, hc⟩
  cases rc with
  | none => exact Nat.le_refl _
  | some c => exact Nat.le_succ _

theorem iterCreateContext_of_some {α : Type u} (w : World) (n : Nat)
    (s : Sys α) (c : BaseCtx) (h : s.reactCtxCache = some c) :
    iterCreateContext w n s = s := by
  induction n with
  | zero => rfl
  | succ n ih =>
    unfold iterCreateContext
    rw [createContext_of_some w s c h]
    exact ih

theorem iterCreateContext_succ_eq {α : Type u} (w : World) (n : Nat)
    (s : Sys α) :
    iterCreateContext w (n + 1) s = (createContext w s).2 := by
  unfold iterCreateContext
  exact iterCreateContext_of_some w n _ _ (createContext_snd_cache w s)

/-- C5: within one request, `createContext` (React `cache`-wrapped) runs its
body at most once: any number of further invocations leaves the state exactly
where the first invocation left it, a re-invocation returns the very pair the
first invocation returned, and the underlying run counter grows by at most
one. -/
theorem createContext_memoized_per_request {α : Type u} (w : World)
    (s : Sys α) (n : Nat) :
    iterCreateContext w (n + 1) s = iterCreateContext w 1 s
    ∧ createContext w (createContext w s).2 =
        ((createContext w s).1, (createContext w s).2)
    ∧ (iterCreateContext w (n + 1) s).ctxCalls ≤ s.ctxCalls + 1 := by
  refine ⟨?_, createContext_stable w s, ?_⟩
  · rw [iterCreateContext_succ_eq, iterCreateContext_succ_eq]
  · rw [iterCreateContext_succ_eq]
    exact createContext_snd_ctxCalls_le w s

@[simp]
theorem afterDelay_logs {α : Type u} (w : World) (s : Sys α) :
    (afterDelay w s).logs = s.logs := by
  unfold afterDelay
  split <;> simp [sleepMs]

@[simp]
theorem afterDelay_handlerCalls {α : Type u} (w : World) (s : Sys α) :
    (afterDelay w s).handlerCalls = s.handlerCalls := by
  unfold afterDelay
  split <;> simp [sleepMs]

@[simp]
theorem afterDelay_cacheStore {α : Type u} (w : World) (s : Sys α) :
    (afterDelay w s).cacheStore = s.cacheStore := by
  unfold afterDelay
  split <;> simp [sleepMs]

@[simp]
theorem afterDelay_now {α : Type u} (w : World) (s : Sys α) :
    (afterDelay w s).now = s.now + devDelay w := by
  unfold afterDelay devDelay
  split <;> simp [sleepMs]

@[simp]
theorem afterDelay_slept {α : Type u} (w : World) (s : Sys α) :
    (afterDelay w s).slept =
      s.slept ++ (if w.isDev then [devWaitMs w] else []) := by
  unfold afterDelay
  split <;> simp_all [sleepMs]

theorem baseStep_eq {α : Type u} (w : World)
    (next : BaseCtx → Sys α → MwRes α × Sys α) (s : Sys α) :
    baseStep w next s =
      ((next (baseNextCtx (createContext w s).1 ((createContext w s).1).log)
          (afterDelay w s)).1,
       { (next (baseNextCtx (createContext w s).1 ((createContext w s).1).log)
            (afterDelay w s)).2 with
         logs :=
           (next (baseNextCtx (createContext w s).1
              ((createContext w s).1).log) (afterDelay w s)).2.logs ++
             [logOutcome
               ((next (baseNextCtx (createContext w s).1
                   ((createContext w s).1).log) (afterDelay w s)).2.now -
                 (afterDelay w s).now)
               (next (baseNextCtx (createContext w s).1
                  ((createContext w s).1).log) (afterDelay w s)).1] }) := by
  have had : (if w.isDev then sleepMs (devWaitMs w) (createContext w s).2
      else (createContext w s).2) = afterDelay w s := rfl
  simp only [baseStep, had]
  cases hx : (next (baseNextCtx (createContext w s).1
      ((createContext w s).1).log) (afterDelay w s)).1 <;>
    simp [hx, logOutcome, logInfo, logError]

theorem baseStep_fst {α : Type u} (w : World)
    (next : BaseCtx → Sys α → MwRes α × Sys α) (s : Sys α) :
    (baseStep w next s).1 =
      (next (baseNextCtx (createContext w s).1 ((createContext w s).1).log)
        (afterDelay w s)).1 := by
  rw [baseStep_eq]

theorem baseStep_snd_handlerCalls {α : Type u} (w : World)
    (next : BaseCtx → Sys α → MwRes α × Sys α) (s : Sys α) :
    (baseStep w next s).2.handlerCalls =
      (next (baseNextCtx (createContext w s).1 ((createContext w s).1).log)
        (afterDelay w s)).2.handlerCalls := by
  rw [baseStep_eq]

theorem baseStep_snd_cacheStore {α : Type u} (w : World)
    (next : BaseCtx → Sys α → MwRes α × Sys α) (s : Sys α) :
    (baseStep w next s).2.cacheStore =
      (next (baseNextCtx (createContext w s).1 ((createContext w s).1).log)
        (afterDelay w s)).2.cacheStore := by
  rw [baseStep_eq]

theorem baseStep_snd_slept {α : Type u} (w : World)
    (next : BaseCtx → Sys α → MwRes α × Sys α) (s : Sys α) :
    (baseStep w next s).2.slept =
      (next (baseNextCtx (createContext w s).1 ((createContext w s).1).log)
        (afterDelay w s)).2.slept := by
  rw [baseStep_eq]

theorem baseStep_snd_now {α : Type u} (w : World)
    (next : BaseCtx → Sys α → MwRes α × Sys α) (s : Sys α) :
    (baseStep w next s).2.now =
      (next (baseNextCtx (createContext w s).1 ((createContext w s).1).log)
        (afterDelay w s)).2.now := by
  rw [baseStep_eq]

theorem baseStep_snd_logs {α : Type u} (w : World)
    (next : BaseCtx → Sys α → MwRes α × Sys α) (s : Sys α) :
    (baseStep w next s).2.logs =
      (next (baseNextCtx (createContext w s).1 ((createContext w s).1).log)
        (afterDelay w s)).2.logs ++
      [logOutcome
        ((next (baseNextCtx (createContext w s).1
            ((createContext w s).1).log) (afterDelay w s)).2.now -
          (afterDelay w s).now)
        (next (baseNextCtx (createContext w s).1
          ((createContext w s).1).log) (afterDelay w s)).1] := by
  rw [baseStep_eq]

theorem runProtected_fst_of_some {α : Type u} {ι : Type v} (w : World)
    (h : AuthedCtx → ι → MwRes α × Nat) (i : ι) (s : Sys α) (u : User)
    (hw : w.session = some u) :
    (runProtected w h i s).1 = (h { log := .console, user := u } i).1 := by
  unfold runProtected
  rw [baseStep_fst]
  simp [protectedMw, authjs, hw, callHandler, protectedNextCtx, baseNextCtx]

theorem runProtected_handlerCalls_of_some {α : Type u} {ι : Type v}
    (w : World) (h : AuthedCtx → ι → MwRes α × Nat) (i : ι) (s : Sys α)
    (u : User) (hw : w.session = some u) :
    (runProtected w h i s).2.handlerCalls = s.handlerCalls + 1 := by
  unfold runProtected
  rw [baseStep_snd_handlerCalls]
  simp [protectedMw, authjs, hw, callHandler, protectedNextCtx, baseNextCtx]

theorem runProtected_fst_of_none {α : Type u} {ι : Type v} (w : World)
    (h : AuthedCtx → ι → MwRes α × Nat) (i : ι) (s : Sys α)
    (hw : w.session = none) :
    (runProtected w h i s).1 = .err (mkTRPCError .UNAUTHORIZED) := by
  unfold runProtected
  rw [baseStep_fst]
  simp [protectedMw, authjs, hw]

theorem runProtected_handlerCalls_of_none {α : Type u} {ι : Type v}
    (w : World) (h : AuthedCtx → ι → MwRes α × Nat) (i : ι) (s : Sys α)
    (hw : w.session = none) :
    (runProtected w h i s).2.handlerCalls = s.handlerCalls := by
  unfold runProtected
  rw [baseStep_snd_handlerCalls]
  simp [protectedMw, authjs, hw]

/-- C1: when session resolution returns nothing, `protectedAction`
short-circuits with the `UNAUTHORIZED` failure and the downstream handler is
never invoked; when a session is present it invokes the handler exactly once,
with the resolved user injected into the context the handler receives, and
passes the handler's result through. -/
theorem protectedAction_auth_gate {α : Type u} {ι : Type v} (w : World)
    (h : AuthedCtx → ι → MwRes α × Nat) (i : ι) (s : Sys α) :
    (w.session = none →
      (runProtected w h i s).1 = .err (mkTRPCError .UNAUTHORIZED)
      ∧ (runProtected w h i s).2.handlerCalls = s.handlerCalls)
    ∧ (∀ u : User, w.session = some u →
      (runProtected w h i s).1 = (h { log := .console, user := u } i).1
      ∧ (runProtected w h i s).2.handlerCalls = s.handlerCalls + 1) := by
  constructor
  · intro hw
    exact ⟨runProtected_fst_of_none w h i s hw,
      runProtected_handlerCalls_of_none w h i s hw⟩
  · intro u hw
    exact ⟨runProtected_fst_of_some w h i s u hw,
      runProtected_handlerCalls_of_some w h i s u hw⟩

/-- C1 witness: a concrete signed-in request reaches the handler once and
returns its value. -/
theorem protectedAction_auth_gate_witness :
    (runProtected wAuthed hOk 0 (initSys : Sys Nat)).1 = MwRes.ok 42
    ∧ (runProtected wAuthed hOk 0 (initSys : Sys Nat)).2.handlerCalls = 1 := by
  have hmain :=
    (protectedAction_auth_gate wAuthed hOk 0 (initSys : Sys Nat)).2 u1 rfl
  exact ⟨hmain.1, hmain.2⟩

theorem runProtectedBoard_fst_of_found {α : Type u} (w : World)
    (h : BoardCtx → BoardInput → MwRes α × Nat) (i : BoardInput) (s : Sys α)
    (u : User) (b : Board) (hw : w.session = some u)
    (hb : boardsFindFirst w.boards u.id i.boardId = some b) :
    (runProtectedBoard w h i s).1 =
      (h { log := .console, user := u, board := b } i).1 := by
  unfold runProtectedBoard
  rw [baseStep_fst]
  simp [protectedMw, authjs, hw, boardMw, protectedNextCtx, baseNextCtx,
    hb, callHandler, boardNextCtx]

theorem runProtectedBoard_handlerCalls_of_found {α : Type u} (w : World)
    (h : BoardCtx → BoardInput → MwRes α × Nat) (i : BoardInput) (s : Sys α)
    (u : User) (b : Board) (hw : w.session = some u)
    (hb : boardsFindFirst w.boards u.id i.boardId = some b) :
    (runProtectedBoard w h i s).2.handlerCalls = s.handlerCalls + 1 := by
  unfold runProtectedBoard
  rw [baseStep_snd_handlerCalls]
  simp [protectedMw, authjs, hw, boardMw, protectedNextCtx, baseNextCtx,
    hb, callHandler, boardNextCtx]

theorem runProtectedBoard_fst_of_missing {α : Type u} (w : World)
    (h : BoardCtx → BoardInput → MwRes α × Nat) (i : BoardInput) (s : Sys α)
    (u : User) (hw : w.session = some u)
    (hb : boardsFindFirst w.boards u.id i.boardId = none) :
    (runProtectedBoard w h i s).1 = .err (mkTRPCError .FORBIDDEN) := by
  unfold runProtectedBoard
  rw [baseStep_fst]
  simp [protectedMw, authjs, hw, boardMw, protectedNextCtx, baseNextCtx, hb]

theorem runProtectedBoard_handlerCalls_of_missing {α : Type u} (w : World)
    (h : BoardCtx → BoardInput → MwRes α × Nat) (i : BoardInput) (s : Sys α)
    (u : User) (hw : w.session = some u)
    (hb : boardsFindFirst w.boards u.id i.boardId = none) :
    (runProtectedBoard w h i s).2.handlerCalls = s.handlerCalls := by
  unfold runProtectedBoard
  rw [baseStep_snd_handlerCalls]
  simp [protectedMw, authjs, hw, boardMw, protectedNextCtx, baseNextCtx, hb]

/-- C2: on an authenticated board-scoped request, the lookup filters the
`boards` table by both the current user's ownership and the declared
`boardId`; exactly when no row matches, the chain short-circuits with the
`FORBIDDEN` failure and the handler is never invoked; when a row matches, the
handler runs exactly once with that board injected into its context and its
result is passed through. -/
theorem protectedBoardAction_ownership {α : Type u} (w : World)
    (h : BoardCtx → BoardInput → MwRes α × Nat) (i : BoardInput) (s : Sys α)
    (u : User) (hw : w.session = some u) :
    (boardsFindFirst w.boards u.id i.boardId = none →
      (runProtectedBoard w h i s).1 = .err (mkTRPCError .FORBIDDEN)
      ∧ (runProtectedBoard w h i s).2.handlerCalls = s.handlerCalls)
    ∧ (∀ b : Board, boardsFindFirst w.boards u.id i.boardId = some b →
      (runProtectedBoard w h i s).1 =
        (h { log := .console, user := u, board := b } i).1
      ∧ (runProtectedBoard w h i s).2.handlerCalls = s.handlerCalls + 1) := by
  constructor
  · intro hb
    exact ⟨runProtectedBoard_fst_of_missing w h i s u hw hb,
      runProtectedBoard_handlerCalls_of_missing w h i s u hw hb⟩
  · intro b hb
    exact ⟨runProtectedBoard_fst_of_found w h i s u b hw hb,
      runProtectedBoard_handlerCalls_of_found w h i s u b hw hb⟩

/-- C2 witness: the concrete owner of `board-1` reaches the handler once. -/
theorem protectedBoardAction_ownership_witness :
    (runProtectedBoard wAuthed hBoard { boardId := "board-1" }
      (initSys : Sys Nat)).1 = MwRes.ok 7
    ∧ (runProtectedBoard wAuthed hBoard { boardId := "board-1" }
        (initSys : Sys Nat)).2.handlerCalls = 1 := by
  have hmain :=
    (protectedBoardAction_ownership wAuthed hBoard { boardId := "board-1" }
      (initSys : Sys Nat) u1 rfl).2 b1 (by decide)
  exact ⟨hmain.1, hmain.2⟩

/-- C6: each step passes downstream a context extending what it received: the
base step forwards its context unchanged; the auth step preserves the log
handle and `user` keeps its value (merely narrowed to non-null); the board
step — though its source returns only `{ board }`, which tRPC shallow-merges —
preserves both `log` and `user` and adds the found board; and in a full
board-scoped run the handler receives exactly the upstream context extended
with the board. -/
theorem middleware_ctx_frame {α : Type u} (w : World)
    (h : BoardCtx → BoardInput → MwRes α × Nat) (i : BoardInput) (s : Sys α)
    (c : BaseCtx) (u : User) (c' : AuthedCtx) (b : Board) :
    baseNextCtx c c.log = c
    ∧ (protectedNextCtx c u).log = c.log
    ∧ (c.user = some u →
        (protectedNextCtx c u).user = u
        ∧ some (protectedNextCtx c u).user = c.user)
    ∧ (boardNextCtx c' b).log = c'.log
    ∧ (boardNextCtx c' b).user = c'.user
    ∧ (boardNextCtx c' b).board = b
    ∧ (w.session = some u →
        boardsFindFirst w.boards u.id i.boardId = some b →
        (runProtectedBoard w h i s).1 =
          (h (boardNextCtx
            (protectedNextCtx { log := .console, user := w.session } u) b)
            i).1) := by
  refine ⟨rfl, rfl, ?_, rfl, rfl, rfl, ?_⟩
  · intro hcu
    exact ⟨rfl, hcu.symm⟩
  · intro hw hb
    exact runProtectedBoard_fst_of_found w h i s u b hw hb

/-- C6 witness: a concrete run in which the handler context is the upstream
context extended with the found board. -/
theorem middleware_ctx_frame_witness :
    (runProtectedBoard wAuthed hBoard { boardId := "board-1" }
      (initSys : Sys Nat)).1 =
      (hBoard (boardNextCtx
        (protectedNextCtx { log := .console, user := wAuthed.session } u1) b1)
        { boardId := "board-1" }).1
    ∧ (protectedNextCtx { log := .console, user := some u1 } u1).user = u1 := by
  have hmain := middleware_ctx_frame wAuthed hBoard { boardId := "board-1" }
    (initSys : Sys Nat) { log := .console, user := some u1 } u1
    { log := .console, user := u1 } b1
  exact ⟨hmain.2.2.2.2.2.2 rfl (by decide), (hmain.2.2.1 rfl).1⟩

/-- C10: the auth step's behaviour is entirely independent of the incoming
context (it resolves the session by calling the collaborator directly, never
reading `ctx.user`), and on a fresh request the user it injects downstream is
exactly the session that the memoized `createContext` stored in the base
context for this request. -/
theorem protectedAction_session_refinement {α : Type u} {ι : Type v}
    (w : World) (h : AuthedCtx → ι → MwRes α × Nat) (i : ι) (s : Sys α)
    (u : User) :
    (∀ (next : AuthedCtx → Sys α → MwRes α × Sys α) (c1 c2 : BaseCtx)
        (s' : Sys α), protectedMw w next c1 s' = protectedMw w next c2 s')
    ∧ (w.session = some u → s.reactCtxCache = none →
        ((createContext w s).1).user = some u
        ∧ (runProtected w h i s).1 = (h { log := .console, user := u } i).1) := by
  constructor
  · intro next c1 c2 s'
    unfold protectedMw authjs
    cases w.session with
    | none => rfl
    | some v =>
      have hctx : protectedNextCtx c1 v = protectedNextCtx c2 v := by
        unfold protectedNextCtx
        congr 1
      simp only [hctx]
  · intro hw hfresh
    constructor
    · rw [createContext_of_none w s hfresh]
      simp [createContextRaw, authjs, hw]
    · exact runProtected_fst_of_some w h i s u hw

/-- C10 witness: on a concrete fresh signed-in request, the stored session and
the injected user coincide. -/
theorem protectedAction_session_refinement_witness :
    ((createContext wAuthed (initSys : Sys Nat)).1).user = some u1
    ∧ (runProtected wAuthed hOk 0 (initSys : Sys Nat)).1 =
        (hOk { log := .console, user := u1 } 0).1 := by
  have hmain :=
    (protectedAction_session_refinement wAuthed hOk 0
      (initSys : Sys Nat) u1).2 rfl rfl
  exact ⟨hmain.1, hmain.2⟩

@[simp]
theorem newRequest_cacheStore {α : Type u} (s : Sys α) :
    (newRequest s).cacheStore = s.cacheStore := rfl

@[simp]
theorem newRequest_handlerCalls {α : Type u} (s : Sys α) :
    (newRequest s).handlerCalls = s.handlerCalls := rfl

theorem runCached_hit_fst {α : Type u} {ι : Type v} (tag : String)
    (w : World) (h : AuthedCtx → ι → MwRes α × Nat) (i : ι) (s : Sys α)
    (u : User) (v : MwRes α) (hw : w.session = some u)
    (hlook : cacheLookup s.cacheStore (u.id, tag) = some v) :
    (runCached tag w h i s).1 = v := by
  unfold runCached
  rw [baseStep_fst]
  simp [protectedMw, authjs, hw, cachedMw, protectedNextCtx, baseNextCtx,
    hlook]

theorem runCached_hit_handlerCalls {α : Type u} {ι : Type v} (tag : String)
    (w : World) (h : AuthedCtx → ι → MwRes α × Nat) (i : ι) (s : Sys α)
    (u : User) (v : MwRes α) (hw : w.session = some u)
    (hlook : cacheLookup s.cacheStore (u.id, tag) = some v) :
    (runCached tag w h i s).2.handlerCalls = s.handlerCalls := by
  unfold runCached
  rw [baseStep_snd_handlerCalls]
  simp [protectedMw, authjs, hw, cachedMw, protectedNextCtx, baseNextCtx,
    hlook]

theorem runCached_hit_cacheStore {α : Type u} {ι : Type v} (tag : String)
    (w : World) (h : AuthedCtx → ι → MwRes α × Nat) (i : ι) (s : Sys α)
    (u : User) (v : MwRes α) (hw : w.session = some u)
    (hlook : cacheLookup s.cacheStore (u.id, tag) = some v) :
    (runCached tag w h i s).2.cacheStore = s.cacheStore := by
  unfold runCached
  rw [baseStep_snd_cacheStore]
  simp [protectedMw, authjs, hw, cachedMw, protectedNextCtx, baseNextCtx,
    hlook]

theorem runCached_miss_handlerCalls {α : Type u} {ι : Type v} (tag : String)
    (w : World) (h : AuthedCtx → ι → MwRes α × Nat) (i : ι) (s : Sys α)
    (u : User) (hw : w.session = some u)
    (hlook : cacheLookup s.cacheStore (u.id, tag) = none) :
    (runCached tag w h i s).2.handlerCalls = s.handlerCalls + 1 := by
  unfold runCached
  rw [baseStep_snd_handlerCalls]
  cases hx : (h { log := .console, user := u } i).1 <;>
    simp [protectedMw, authjs, hw, cachedMw, protectedNextCtx, baseNextCtx,
      hlook, callHandler, hx]

theorem runCached_miss_fst_ok {α : Type u} {ι : Type v} (tag : String)
    (w : World) (h : AuthedCtx → ι → MwRes α × Nat) (i : ι) (s : Sys α)
    (u : User) (a : α) (hw : w.session = some u)
    (hlook : cacheLookup s.cacheStore (u.id, tag) = none)
    (hok : (h { log := .console, user := u } i).1 = .ok a) :
    (runCached tag w h i s).1 = .ok a := by
  unfold runCached
  rw [baseStep_fst]
  simp [protectedMw, authjs, hw, cachedMw, protectedNextCtx, baseNextCtx,
    hlook, callHandler, hok]

theorem runCached_miss_cacheStore_ok {α : Type u} {ι : Type v} (tag : String)
    (w : World) (h : AuthedCtx → ι → MwRes α × Nat) (i : ι) (s : Sys α)
    (u : User) (a : α) (hw : w.session = some u)
    (hlook : cacheLookup s.cacheStore (u.id, tag) = none)
    (hok : (h { log := .console, user := u } i).1 = .ok a) :
    (runCached tag w h i s).2.cacheStore =
      ((u.id, tag), MwRes.ok a) :: s.cacheStore := by
  unfold runCached
  rw [baseStep_snd_cacheStore]
  simp [protectedMw, authjs, hw, cachedMw, protectedNextCtx, baseNextCtx,
    hlook, callHandler, hok]

theorem runCached_miss_fst_err {α : Type u} {ι : Type v} (tag : String)
    (w : World) (h : AuthedCtx → ι → MwRes α × Nat) (i : ι) (s : Sys α)
    (u : User) (e : TRPCErr) (hw : w.session = some u)
    (hlook : cacheLookup s.cacheStore (u.id, tag) = none)
    (herr : (h { log := .console, user := u } i).1 = .err e) :
    (runCached tag w h i s).1 = .err (mkTRPCError .INTERNAL_SERVER_ERROR) := by
  unfold runCached
  rw [baseStep_fst]
  simp [protectedMw, authjs, hw, cachedMw, protectedNextCtx, baseNextCtx,
    hlook, callHandler, herr]

theorem runCached_miss_cacheStore_err {α : Type u} {ι : Type v} (tag : String)
    (w : World) (h : AuthedCtx → ι → MwRes α × Nat) (i : ι) (s : Sys α)
    (u : User) (e : TRPCErr) (hw : w.session = some u)
    (hlook : cacheLookup s.cacheStore (u.id, tag) = none)
    (herr : (h { log := .console, user := u } i).1 = .err e) :
    (runCached tag w h i s).2.cacheStore = s.cacheStore := by
  unfold runCached
  rw [baseStep_snd_cacheStore]
  simp [protectedMw, authjs, hw, cachedMw, protectedNextCtx, baseNextCtx,
    hlook, callHandler, herr]

/-- C3: on a cache miss the cached variant invokes the downstream handler
exactly once and, when the handler succeeds, stores the successful result
under the `(user id, declared tag)` key and returns it; on a cache hit for
the same user identity and tag it does not invoke the handler, returns the
previously stored result, and leaves the store untouched. -/
theorem cachedDataLayer_cache {α : Type u} {ι : Type v} (tag : String)
    (w : World) (h : AuthedCtx → ι → MwRes α × Nat) (i : ι) (s : Sys α)
    (u : User) (hw : w.session = some u) :
    (cacheLookup s.cacheStore (u.id, tag) = none →
      (runCached tag w h i s).2.handlerCalls = s.handlerCalls + 1
      ∧ (∀ a : α, (h { log := .console, user := u } i).1 = .ok a →
          (runCached tag w h i s).1 = .ok a
          ∧ (runCached tag w h i s).2.cacheStore =
              ((u.id, tag), MwRes.ok a) :: s.cacheStore))
    ∧ (∀ v : MwRes α, cacheLookup s.cacheStore (u.id, tag) = some v →
        (runCached tag w h i s).1 = v
        ∧ (runCached tag w h i s).2.handlerCalls = s.handlerCalls
        ∧ (runCached tag w h i s).2.cacheStore = s.cacheStore) := by
  constructor
  · intro hlook
    refine ⟨runCached_miss_handlerCalls tag w h i s u hw hlook, ?_⟩
    intro a hok
    exact ⟨runCached_miss_fst_ok tag w h i s u a hw hlook hok,
      runCached_miss_cacheStore_ok tag w h i s u a hw hlook hok⟩
  · intro v hlook
    exact ⟨runCached_hit_fst tag w h i s u v hw hlook,
      runCached_hit_handlerCalls tag w h i s u v hw hlook,
      runCached_hit_cacheStore tag w h i s u v hw hlook⟩

/-- C3 witness: a concrete miss invokes the handler once and stores its
successful result under the declared tag. -/
theorem cachedDataLayer_cache_witness :
    (runCached "boards" wAuthed hOk 0 (initSys : Sys Nat)).2.handlerCalls = 1
    ∧ (runCached "boards" wAuthed hOk 0 (initSys : Sys Nat)).1 = MwRes.ok 42
    ∧ (runCached "boards" wAuthed hOk 0 (initSys : Sys Nat)).2.cacheStore =
        [(("alice", "boards"), MwRes.ok 42)] := by
  have hmain :=
    (cachedDataLayer_cache "boards" wAuthed hOk 0 (initSys : Sys Nat) u1
      rfl).1 rfl
  exact ⟨hmain.1, (hmain.2 42 rfl).1, (hmain.2 42 rfl).2⟩

/-- C4 counterexample: a downstream failure whose code is already
`INTERNAL_SERVER_ERROR` surfaces with exactly the original error's code, so
the surfaced failure is of the original error type, contrary to the claim's
"never the original error type". -/
theorem cachedDataLayer_error_counterexample :
    (hBoom { log := .console, user := u1 } 0).1 =
      MwRes.err { code := .INTERNAL_SERVER_ERROR, message := "boom" }
    ∧ (runCached "boards" wAuthed hBoom 0 (initSys : Sys Nat)).1 =
        MwRes.err (mkTRPCError .INTERNAL_SERVER_ERROR)
    ∧ (mkTRPCError .INTERNAL_SERVER_ERROR).code =
        ({ code := .INTERNAL_SERVER_ERROR, message := "boom" } : TRPCErr).code := by
  refine ⟨rfl, ?_, rfl⟩
  decide

/-- C4 (amended): every downstream failure inside the cached variant surfaces
as the freshly built generic `INTERNAL_SERVER_ERROR`, with the original
error's code and detail discarded; in particular the surfaced failure differs
from the original whenever the original's code is not itself
`INTERNAL_SERVER_ERROR`. -/
theorem cachedDataLayer_error_collapse {α : Type u} {ι : Type v}
    (tag : String) (w : World) (h : AuthedCtx → ι → MwRes α × Nat) (i : ι)
    (s : Sys α) (u : User) (e : TRPCErr) (hw : w.session = some u)
    (hlook : cacheLookup s.cacheStore (u.id, tag) = none)
    (herr : (h { log := .console, user := u } i).1 = .err e) :
    (runCached tag w h i s).1 = .err (mkTRPCError .INTERNAL_SERVER_ERROR)
    ∧ (e.code ≠ .INTERNAL_SERVER_ERROR →
        (runCached tag w h i s).1 ≠ .err e)
    ∧ (runCached tag w h i s).2.cacheStore = s.cacheStore := by
  refine ⟨runCached_miss_fst_err tag w h i s u e hw hlook herr, ?_,
    runCached_miss_cacheStore_err tag w h i s u e hw hlook herr⟩
  intro hcode heq
  rw [runCached_miss_fst_err tag w h i s u e hw hlook herr] at heq
  apply hcode
  have hmsg : mkTRPCError .INTERNAL_SERVER_ERROR = e := by
    injection heq
  rw [← hmsg]
  rfl

/-- C4 witness: a concrete downstream `NOT_FOUND` failure surfaces as the
generic internal error and not as the original error. -/
theorem cachedDataLayer_error_collapse_witness :
    (runCached "boards" wAuthed hFail 0 (initSys : Sys Nat)).1 =
      MwRes.err (mkTRPCError .INTERNAL_SERVER_ERROR)
    ∧ (runCached "boards" wAuthed hFail 0 (initSys : Sys Nat)).1 ≠
        MwRes.err { code := .NOT_FOUND, message := "missing row" } := by
  have hmain := cachedDataLayer_error_collapse "boards" wAuthed hFail 0
    (initSys : Sys Nat) u1 { code := .NOT_FOUND, message := "missing row" }
    rfl rfl rfl
  exact ⟨hmain.1, hmain.2.1 (by decide)⟩

/-- C9: the cache key consists only of the user id and the declared tag, not
the request input: after a first invocation populates the cache, a second
request by the same user under the same tag returns the first invocation's
result without invoking the handler, even though its input differs. -/
theorem cachedDataLayer_key_ignores_input {α : Type u} {ι : Type v}
    (tag : String) (w : World) (h : AuthedCtx → ι → MwRes α × Nat)
    (i1 i2 : ι) (s : Sys α) (u : User) (a : α) (hw : w.session = some u)
    (hlook : cacheLookup s.cacheStore (u.id, tag) = none)
    (hok : (h { log := .console, user := u } i1).1 = .ok a) :
    (runCached tag w h i2 (newRequest (runCached tag w h i1 s).2)).1 =
      (runCached tag w h i1 s).1
    ∧ (runCached tag w h i2
        (newRequest (runCached tag w h i1 s).2)).2.handlerCalls =
        ((runCached tag w h i1 s).2).handlerCalls := by
  have hstore := runCached_miss_cacheStore_ok tag w h i1 s u a hw hlook hok
  have hfst := runCached_miss_fst_ok tag w h i1 s u a hw hlook hok
  have hlook2 : cacheLookup
      ((newRequest (runCached tag w h i1 s).2)).cacheStore (u.id, tag) =
      some (MwRes.ok a) := by
    rw [newRequest_cacheStore, hstore]
    simp [cacheLookup]
  constructor
  · rw [runCached_hit_fst tag w h i2 _ u (MwRes.ok a) hw hlook2, hfst]
  · rw [runCached_hit_handlerCalls tag w h i2 _ u (MwRes.ok a) hw hlook2,
      newRequest_handlerCalls]

/-- C9 witness: an input-sensitive handler is consulted only on the first
request; the second request with a different input gets the first's cached
result. -/
theorem cachedDataLayer_key_ignores_input_witness :
    (runCached "boards" wAuthed hEcho 11
      (newRequest (runCached "boards" wAuthed hEcho 5
        (initSys : Sys Nat)).2)).1 =
      (runCached "boards" wAuthed hEcho 5 (initSys : Sys Nat)).1
    ∧ (runCached "boards" wAuthed hEcho 11
        (newRequest (runCached "boards" wAuthed hEcho 5
          (initSys : Sys Nat)).2)).2.handlerCalls =
        ((runCached "boards" wAuthed hEcho 5
          (initSys : Sys Nat)).2).handlerCalls := by
  have hmain := cachedDataLayer_key_ignores_input "boards" wAuthed hEcho
    5 11 (initSys : Sys Nat) u1 5 rfl rfl rfl
  exact ⟨hmain.1, hmain.2⟩

@[simp]
theorem callHandler_snd_logs {α : Type u} {γ : Type} {ι : Type v}
    (h : γ → ι → MwRes α × Nat) (c : γ) (i : ι) (s : Sys α) :
    (callHandler h c i s).2.logs = s.logs := rfl

@[simp]
theorem callHandler_snd_slept {α : Type u} {γ : Type} {ι : Type v}
    (h : γ → ι → MwRes α × Nat) (c : γ) (i : ι) (s : Sys α) :
    (callHandler h c i s).2.slept = s.slept := rfl

theorem protectedMw_snd_logs {α : Type u} (w : World)
    (next : AuthedCtx → Sys α → MwRes α × Sys α) (c : BaseCtx) (s : Sys α)
    (hnext : ∀ (c' : AuthedCtx) (s' : Sys α), ((next c' s').2).logs = s'.logs) :
    ((protectedMw w next c s).2).logs = s.logs := by
  unfold protectedMw authjs
  cases w.session with
  | none => rfl
  | some v => exact hnext _ _

theorem protectedMw_snd_slept {α : Type u} (w : World)
    (next : AuthedCtx → Sys α → MwRes α × Sys α) (c : BaseCtx) (s : Sys α)
    (hnext : ∀ (c' : AuthedCtx) (s' : Sys α),
      ((next c' s').2).slept = s'.slept) :
    ((protectedMw w next c s).2).slept = s.slept := by
  unfold protectedMw authjs
  cases w.session with
  | none => rfl
  | some v => exact hnext _ _

theorem boardMw_snd_logs {α : Type u} (w : World)
    (next : BoardCtx → Sys α → MwRes α × Sys α) (c : AuthedCtx)
    (i : BoardInput) (s : Sys α)
    (hnext : ∀ (c' : BoardCtx) (s' : Sys α), ((next c' s').2).logs = s'.logs) :
    ((boardMw w next c i s).2).logs = s.logs := by
  unfold boardMw
  cases boardsFindFirst w.boards c.user.id i.boardId with
  | none => rfl
  | some b => exact hnext _ _

theorem cachedMw_snd_logs {α : Type u} (tag : String)
    (next : Sys α → MwRes α × Sys α) (c : AuthedCtx) (s : Sys α)
    (hnext : ∀ s' : Sys α, ((next s').2).logs = s'.logs) :
    ((cachedMw tag next c s).2).logs = s.logs := by
  unfold cachedMw
  cases cacheLookup s.cacheStore (c.user.id, tag) with
  | some v => rfl
  | none =>
    cases hx : (next s).1 <;> simp [hx, hnext s]

/-- C7: for every request through any of the four variants, the base step
appends exactly one outcome record to the log: an info record with the
success payload when the overall result is a success, an error record with
the error otherwise, carrying the measured duration of the downstream call
(the clock elapsed beyond the injected dev delay); the logged outcome is the
very result returned to the caller. -/
theorem base_logs_one_outcome {α : Type u} {ι : Type v} (w : World)
    (hB : BaseCtx → ι → MwRes α × Nat) (hA : AuthedCtx → ι → MwRes α × Nat)
    (hBd : BoardCtx → BoardInput → MwRes α × Nat) (tag : String) (i : ι)
    (ib : BoardInput) (s : Sys α) :
    (runPublic w hB i s).2.logs = s.logs ++
      [logOutcome ((runPublic w hB i s).2.now - s.now - devDelay w)
        (runPublic w hB i s).1]
    ∧ (runProtected w hA i s).2.logs = s.logs ++
      [logOutcome ((runProtected w hA i s).2.now - s.now - devDelay w)
        (runProtected w hA i s).1]
    ∧ (runProtectedBoard w hBd ib s).2.logs = s.logs ++
      [logOutcome ((runProtectedBoard w hBd ib s).2.now - s.now - devDelay w)
        (runProtectedBoard w hBd ib s).1]
    ∧ (runCached tag w hA i s).2.logs = s.logs ++
      [logOutcome ((runCached tag w hA i s).2.now - s.now - devDelay w)
        (runCached tag w hA i s).1] := by
  refine ⟨?_, ?_, ?_, ?_⟩
  · unfold runPublic
    simp only [baseStep_snd_logs, baseStep_snd_now, baseStep_fst,
      callHandler_snd_logs, afterDelay_logs, afterDelay_now, Nat.sub_sub]
  · unfold runProtected
    have hinner : ∀ (c' : BaseCtx) (s' : Sys α),
        ((protectedMw w (fun c2 s2 => callHandler hA c2 i s2) c' s').2).logs =
          s'.logs := by
      intro c' s'
      exact protectedMw_snd_logs w _ c' s' (fun c2 s2 => rfl)
    simp only [baseStep_snd_logs, baseStep_snd_now, baseStep_fst, hinner,
      afterDelay_logs, afterDelay_now, Nat.sub_sub]
  · unfold runProtectedBoard
    have hinner : ∀ (c' : BaseCtx) (s' : Sys α),
        ((protectedMw w (fun c2 s2 =>
          boardMw w (fun c3 s3 => callHandler hBd c3 ib s3) c2 ib s2)
            c' s').2).logs = s'.logs := by
      intro c' s'
      refine protectedMw_snd_logs w _ c' s' (fun c2 s2 => ?_)
      exact boardMw_snd_logs w _ c2 ib s2 (fun c3 s3 => rfl)
    simp only [baseStep_snd_logs, baseStep_snd_now, baseStep_fst, hinner,
      afterDelay_logs, afterDelay_now, Nat.sub_sub]
  · unfold runCached
    have hinner : ∀ (c' : BaseCtx) (s' : Sys α),
        ((protectedMw w (fun c2 s2 =>
          cachedMw tag (fun s3 => callHandler hA c2 i s3) c2 s2)
            c' s').2).logs = s'.logs := by
      intro c' s'
      refine protectedMw_snd_logs w _ c' s' (fun c2 s2 => ?_)
      exact cachedMw_snd_logs tag _ c2 s2 (fun s3 => rfl)
    simp only [baseStep_snd_logs, baseStep_snd_now, baseStep_fst, hinner,
      afterDelay_logs, afterDelay_now, Nat.sub_sub]

/-- C8: the base step injects an artificial delay exactly when dev mode is
enabled, and the injected delay is `Math.floor(Math.random() * 400) + 100`
milliseconds, an integer between 100 and 499 inclusive; outside dev mode the
sleep log is untouched. -/
theorem base_dev_delay {α : Type u} {ι : Type v} (w : World)
    (h : BaseCtx → ι → MwRes α × Nat) (i : ι) (s : Sys α) :
    (runPublic w h i s).2.slept =
      s.slept ++ (if w.isDev then [devWaitMs w] else [])
    ∧ 100 ≤ devWaitMs w ∧ devWaitMs w ≤ 499 := by
  refine ⟨?_, ?_, ?_⟩
  · unfold runPublic
    rw [baseStep_snd_slept]
    simp only [callHandler_snd_slept, afterDelay_slept]
  · exact Nat.le_add_left 100 w.rand.val
  · have hlt : w.rand.val < 400 := w.rand.isLt
    unfold devWaitMs
    omega

end RelivatorTrpc
